import Mathlib

/-!
Verification of the `errors` package of common-pkg-svc.

The Go source is shallowly embedded: the `AppError` struct becomes the
structure `AppErrorData` (its `Cause error` field is carried alongside as an
`Option GoError`, since Lean structures cannot recursively contain the error
universe), and the universe of Go `error` values reachable in this package
becomes the inductive `GoError`: `*AppError`, `*wrapError`, the join produced
by `errors.Join`, foreign errors not built by this package, and the four
specialized variants (`LimitError`, `RBACError`, `FieldError`,
`TimeoutError`), each of which embeds an `AppError`.

Modelling conventions:
  * Go `time.Time` is modelled as `Nat` (Unix seconds; `0` is the zero time),
    the precision of the RFC3339 wire format used by this package.
  * The RFC3339-formatted string produced by Go's `time.Format(time.RFC3339)`
    is modelled by the opaque JSON token `JVal.time t`; the Go standard
    library guarantees `time.Parse(RFC3339, t.Format(RFC3339)) == t` at
    second precision, so parsing that token recovers `t`, while `JVal.s`
    covers every other string, for which `time.Parse` fails and the Go code
    leaves the timestamp at its zero value.
  * `map[string]any` metadata is modelled as an association list
    `List (String × String)` whose values are opaque; a serialized JSON
    object is `List (String × JVal)` (Go's `json.Marshal` sorts map keys,
    but key order is irrelevant to every property stated below, which only
    uses lookup and membership).
  * `time.Now()` and `debug.Stack()` are nondeterministic inputs of
    construction; they appear as explicit `now` / `stack` arguments.
  * Go compares errors by pointer identity inside `errors.Is`; the model
    uses structural equality (`errEq`), which is implied by pointer
    equality, so every positive `Is` fact proved here holds in Go.
-/

/-- JSON values appearing in this package's wire format: plain strings, the
RFC3339 token for a formatted timestamp (see the module docstring), and the
(string-valued) metadata object. -/
inductive JVal where
  | s (v : String)
  | time (t : Nat)
  | obj (kvs : List (String × String))
  deriving DecidableEq, Repr

/-- The fields of Go's `AppError` struct other than `Cause error`, which is
carried alongside as an `Option GoError` wherever a full `*AppError` value is
meant. `Code`, `Kind` are Go `string`-based types. -/
structure AppErrorData where
  Code : String
  Kind : String
  InternalMsg : String
  UserMsg : String
  stackTrace : List String
  TraceID : String
  RequestID : String
  Timestamp : Nat
  Retryable : Bool
  Timeout : Bool
  Metadata : List (String × String)
  deriving DecidableEq, Repr

/-- The universe of Go `error` values reachable in this package: `*AppError`
(data plus its `Cause`), `*wrapError`, the result of `errors.Join`, a foreign
error (any error value not constructed by this package: it carries only its
`Error()` text and has no `Unwrap`), and the four specialized variants, each
embedding an `AppError`. A Go `error` interface value that may be nil is
`Option GoError`. -/
inductive GoError where
  | app (d : AppErrorData) (cause : Option GoError)
  | wrapE (msg : String) (cause : Option GoError)
  | joined (errs : List GoError)
  | foreign (msg : String)
  | limitE (d : AppErrorData) (cause : Option GoError) (remaining : Int) (reset : Nat)
  | rbacE (d : AppErrorData) (cause : Option GoError) (role action resource : String)
  | fieldE (d : AppErrorData) (cause : Option GoError) (field reason : String)
  | timeoutE (d : AppErrorData) (cause : Option GoError) (deadline : Nat)
  deriving Repr

mutual
/-- Structural equality on `GoError` (Go's `==` on error values is pointer
equality, which implies structural equality in this model). -/
def errEq : GoError → GoError → Bool
  | .app d c, .app d' c' => d == d' && errEqOpt c c'
  | .wrapE m c, .wrapE m' c' => m == m' && errEqOpt c c'
  | .joined es, .joined es' => errEqList es es'
  | .foreign m, .foreign m' => m == m'
  | .limitE d c r s, .limitE d' c' r' s' => d == d' && errEqOpt c c' && r == r' && s == s'
  | .rbacE d c a b r, .rbacE d' c' a' b' r' =>
      d == d' && errEqOpt c c' && a == a' && b == b' && r == r'
  | .fieldE d c f r, .fieldE d' c' f' r' => d == d' && errEqOpt c c' && f == f' && r == r'
  | .timeoutE d c t, .timeoutE d' c' t' => d == d' && errEqOpt c c' && t == t'
  | _, _ => false

/-- `errEq` lifted to nilable errors. -/
def errEqOpt : Option GoError → Option GoError → Bool
  | none, none => true
  | some e, some e' => errEq e e'
  | _, _ => false

/-- `errEq` on lists, pointwise. -/
def errEqList : List GoError → List GoError → Bool
  | [], [] => true
  | e :: es, e' :: es' => errEq e e' && errEqList es es'
  | _, _ => false
end

/-- The `Unwrap() error` method where the Go dynamic type has one:
`*AppError`, `*wrapError` and the variants (whose embedded `AppError`
promotes `Unwrap`) return their cause; the join of `errors.Join` only has
`Unwrap() []error`, and a foreign error has none, so for the purposes of an
`interface{ Unwrap() error }` assertion both yield nothing. -/
def unwrapOne : GoError → Option GoError
  | .app _ c => c
  | .wrapE _ c => c
  | .joined _ => none
  | .foreign _ => none
  | .limitE _ c _ _ => c
  | .rbacE _ c _ _ _ => c
  | .fieldE _ c _ _ => c
  | .timeoutE _ c _ => c

mutual
/-- Go's `errors.Is(e, target)`: `e == target`, or recursion through
`Unwrap() error`, or through every element of `Unwrap() []error` for a
joined error. No type in this package defines an `Is(error) bool` method. -/
def errorIs : GoError → GoError → Bool
  | .app d c, t => errEq (.app d c) t || errorIsOpt c t
  | .wrapE m c, t => errEq (.wrapE m c) t || errorIsOpt c t
  | .joined es, t => errEq (.joined es) t || errorIsList es t
  | .foreign m, t => errEq (.foreign m) t
  | .limitE d c r s, t => errEq (.limitE d c r s) t || errorIsOpt c t
  | .rbacE d c a b r, t => errEq (.rbacE d c a b r) t || errorIsOpt c t
  | .fieldE d c f r, t => errEq (.fieldE d c f r) t || errorIsOpt c t
  | .timeoutE d c dl, t => errEq (.timeoutE d c dl) t || errorIsOpt c t

/-- `errorIs` through a nilable cause; a nil cause matches nothing. -/
def errorIsOpt : Option GoError → GoError → Bool
  | none, _ => false
  | some e, t => errorIs e t

/-- `errorIs` against any element of a joined error's list. -/
def errorIsList : List GoError → GoError → Bool
  | [], _ => false
  | e :: es, t => errorIs e t || errorIsList es t
end

/-- `AppError.Error()`: internal message, else user message, else the code. -/
def appErrorMsg (e : AppErrorData) : String :=
  if e.InternalMsg ≠ "" then e.InternalMsg
  else if e.UserMsg ≠ "" then e.UserMsg
  else e.Code

mutual
/-- `Error()` on each dynamic type: `AppError` (and the variants, via
promotion of the embedded `AppError`) use `appErrorMsg`; `wrapError` prepends
its message to the cause's text; `errors.Join`'s error joins the texts with
newlines; a foreign error is its own text. -/
def errorText : GoError → String
  | .app d _ => appErrorMsg d
  | .wrapE m none => m
  | .wrapE m (some c) => m ++ ": " ++ errorText c
  | .joined es => String.intercalate "\n" (errorTextList es)
  | .foreign m => m
  | .limitE d _ _ _ => appErrorMsg d
  | .rbacE d _ _ _ _ => appErrorMsg d
  | .fieldE d _ _ _ => appErrorMsg d
  | .timeoutE d _ _ => appErrorMsg d

/-- `Error()` of each member of a joined error's list. -/
def errorTextList : List GoError → List String
  | [] => []
  | e :: es => errorText e :: errorTextList es
end

/-! Taxonomy: the `Kind` and `Code` constants and the two lookup tables. -/

def KindValidation : String := "validation"
def KindNetwork : String := "network"
def KindTimeout : String := "timeout"
def KindNotFound : String := "not_found"
def KindConflict : String := "conflict"
def KindForbidden : String := "forbidden"
def KindInternal : String := "internal"
def KindRateLimit : String := "rate_limit"
def KindAuth : String := "auth"
def KindUnauthorized : String := "unauthorized"
def KindOther : String := "other"

def CodeInvalidInput : String := "INVALID_INPUT"
def CodeNotFound : String := "NOT_FOUND"
def CodeConflict : String := "CONFLICT"
def CodeTimeout : String := "TIMEOUT"
def CodeRateLimited : String := "RATE_LIMITED"
def CodePermissionDenied : String := "PERMISSION_DENIED"
def CodeValidation : String := "VALIDATION"
def CodeVideoDecodeFail : String := "VIDEO_DECODE_FAIL"
def CodeNetwork : String := "NETWORK"
def CodeInternal : String := "INTERNAL"
def CodeUnauthorized : String := "UNAUTHORIZED"

/-- `kindToHTTPStatus` from the source: the Kind→HTTP-status switch with a
default of 500. -/
def kindToHTTPStatus (k : String) : Nat :=
  if k = KindValidation then 400
  else if k = KindAuth ∨ k = KindForbidden then 403
  else if k = KindUnauthorized then 401
  else if k = KindNotFound then 404
  else if k = KindConflict then 409
  else if k = KindTimeout then 408
  else if k = KindRateLimit then 429
  else if k = KindNetwork ∨ k = KindInternal ∨ k = KindOther then 500
  else 500

/-- `codeToKind` from the source: the Code→Kind switch with a default of
`KindOther`. -/
def codeToKind (c : String) : String :=
  if c = CodeInvalidInput ∨ c = CodeValidation then KindValidation
  else if c = CodeNotFound then KindNotFound
  else if c = CodeConflict then KindConflict
  else if c = CodeTimeout then KindTimeout
  else if c = CodeRateLimited then KindRateLimit
  else if c = CodePermissionDenied ∨ c = CodeUnauthorized then KindAuth
  else if c = CodeNetwork then KindNetwork
  else if c = CodeInternal ∨ c = CodeVideoDecodeFail then KindInternal
  else KindOther

/-- `HTTPStatus` method of `AppError`. -/
def AppErrorData.HTTPStatus (e : AppErrorData) : Nat :=
  kindToHTTPStatus e.Kind

/-- `IsRetryable` method of `AppError`. -/
def AppErrorData.IsRetryable (e : AppErrorData) : Bool :=
  e.Retryable

/-- `IsTimeout` method of `AppError`: the explicit flag or the timeout kind. -/
def AppErrorData.IsTimeout (e : AppErrorData) : Bool :=
  e.Timeout || e.Kind == KindTimeout

/-! Redaction and JSON marshalling. -/

/-- The `pIIFields` set from the source (a Go `map[string]bool` used for
membership). -/
def pIIFields : List String :=
  ["password", "token", "secret", "email", "ssn", "credit_card", "api_key"]

/-- Whether the first character list starts the second. -/
def isPrefixChars : List Char → List Char → Bool
  | [], _ => true
  | _ :: _, [] => false
  | a :: as, b :: bs => a == b && isPrefixChars as bs

/-- Whether the first character list occurs contiguously in the second. -/
def hasSubChars (sub : List Char) : List Char → Bool
  | [] => isPrefixChars sub []
  | l@(_ :: rest) => isPrefixChars sub l || hasSubChars sub rest

/-- Go `strings.Contains s sub`. -/
def stringContains (s sub : String) : Bool :=
  hasSubChars sub.data s.data

/-- Go `strings.ToLower`, character by character (ASCII case folding, which
covers every key compared against `pIIFields`). -/
def stringToLower (s : String) : String :=
  String.mk (s.data.map Char.toLower)

/-- `isPIIField` from the source: lower-case the key, then membership in
`pIIFields` or a password/token/secret substring. -/
def isPIIField (k : String) : Bool :=
  let lower := stringToLower k
  pIIFields.contains lower || stringContains lower "password" ||
    stringContains lower "token" || stringContains lower "secret"

/-- `redactMetadata` from the source: replace the value of every sensitive
key with the fixed marker, keep everything else. (The Go code rebuilds a map;
the association-list model keeps entries in place, which denotes the same
map.) -/
def redactMetadata (m : List (String × String)) : List (String × String) :=
  m.map fun kv => if isPIIField kv.1 then (kv.1, "[REDACTED]") else kv

/-- `AppError.MarshalJSON`: the JSON object it emits, as an association list
(Go's `json.Marshal` sorts the map's keys; order is irrelevant to every
property below). The cause argument is the `Cause` field of the receiver; it
is not read, exactly as in the source. -/
def MarshalJSON (e : AppErrorData) (_cause : Option GoError) : List (String × JVal) :=
  [("code", JVal.s e.Code), ("kind", JVal.s e.Kind), ("message", JVal.s e.UserMsg)]
    ++ (if e.TraceID ≠ "" then [("trace_id", JVal.s e.TraceID)] else [])
    ++ (if e.RequestID ≠ "" then [("request_id", JVal.s e.RequestID)] else [])
    ++ (if e.Timestamp ≠ 0 then [("timestamp", JVal.time e.Timestamp)] else [])
    ++ (if e.Metadata ≠ [] then [("metadata", JVal.obj (redactMetadata e.Metadata))] else [])

/-- The zero `AppError` value that `UnmarshalJSON` starts from. -/
def zeroAppErrorData : AppErrorData :=
  { Code := "", Kind := "", InternalMsg := "", UserMsg := "", stackTrace := [],
    TraceID := "", RequestID := "", Timestamp := 0, Retryable := false,
    Timeout := false, Metadata := [] }

/-- `AppError.UnmarshalJSON` applied to a decoded JSON object: each key is
read when present with the right dynamic type; `message` fills both the user
and internal messages; a `timestamp` that is not a well-formed RFC3339 string
leaves the Go zero time (see the module docstring for the `JVal.time`
token). -/
def UnmarshalJSON (m : List (String × JVal)) : AppErrorData :=
  let e := zeroAppErrorData
  let e := match m.lookup "code" with
    | some (.s c) => { e with Code := c }
    | _ => e
  let e := match m.lookup "kind" with
    | some (.s k) => { e with Kind := k }
    | _ => e
  let e := match m.lookup "message" with
    | some (.s msg) => { e with UserMsg := msg, InternalMsg := msg }
    | _ => e
  let e := match m.lookup "trace_id" with
    | some (.s t) => { e with TraceID := t }
    | _ => e
  let e := match m.lookup "request_id" with
    | some (.s r) => { e with RequestID := r }
    | _ => e
  let e := match m.lookup "timestamp" with
    | some (.time t) => { e with Timestamp := t }
    | some (.s _) => { e with Timestamp := 0 }
    | _ => e
  let e := match m.lookup "metadata" with
    | some (.obj md) => { e with Metadata := md }
    | _ => e
  e

/-! Construction. -/

/-- The functional `Option` arguments of `New` (named `ErrOption` because
`Option` is taken in Lean). Only these seven constructors exist in the
package. -/
inductive ErrOption where
  | withCause (c : Option GoError)
  | withKind (k : String)
  | withTraceID (id : String)
  | withRequestID (id : String)
  | withRetryable (b : Bool)
  | withTimeout (b : Bool)
  | withMetadata (m : List (String × String))

/-- Key-wise overwrite of one metadata entry (Go map assignment `m[k] = v`). -/
def setKV (l : List (String × String)) (k v : String) : List (String × String) :=
  if l.any (fun kv => kv.1 == k) then
    l.map (fun kv => if kv.1 == k then (k, v) else kv)
  else
    l ++ [(k, v)]

/-- `WithMetadata`'s merge loop: overwrite each supplied key into the
existing metadata map. -/
def mergeMeta (base m : List (String × String)) : List (String × String) :=
  m.foldl (fun acc kv => setKV acc kv.1 kv.2) base

/-- Application of one option to the (`AppError` fields, `Cause`) pair being
constructed, mirroring each `With*` closure of the source. -/
def ErrOption.apply (o : ErrOption) (p : AppErrorData × Option GoError) :
    AppErrorData × Option GoError :=
  match o with
  | .withCause c => (p.1, c)
  | .withKind k => ({ p.1 with Kind := k }, p.2)
  | .withTraceID i => ({ p.1 with TraceID := i }, p.2)
  | .withRequestID i => ({ p.1 with RequestID := i }, p.2)
  | .withRetryable b => ({ p.1 with Retryable := b }, p.2)
  | .withTimeout b => ({ p.1 with Timeout := b }, p.2)
  | .withMetadata m => ({ p.1 with Metadata := mergeMeta p.1.Metadata m }, p.2)

/-- `New` from the source: kind defaulted from the code table, user message
falling back to the internal message when empty, the clock reading and the
captured stack (`now`, `stack` model `time.Now()` and `debug.Stack()`), then
the options applied in order. Returns the (`AppError` fields, `Cause`)
pair. -/
def New (now : Nat) (stack : List String) (code im um : String)
    (opts : List ErrOption) : AppErrorData × Option GoError :=
  let e : AppErrorData :=
    { Code := code, Kind := codeToKind code, InternalMsg := im,
      UserMsg := if um = "" then im else um, stackTrace := stack,
      TraceID := "", RequestID := "", Timestamp := now, Retryable := false,
      Timeout := false, Metadata := [] }
  opts.foldl (fun p o => o.apply p) (e, none)

/-- `NewSentinel` from the source: no stack, no timestamp, no cause, both
messages equal to `msg`. -/
def NewSentinel (code msg kind : String) : AppErrorData :=
  { Code := code, Kind := kind, InternalMsg := msg, UserMsg := msg,
    stackTrace := [], TraceID := "", RequestID := "", Timestamp := 0,
    Retryable := false, Timeout := false, Metadata := [] }

def ErrInvalidInput : AppErrorData := NewSentinel CodeInvalidInput "invalid input" KindValidation
def ErrNotFound : AppErrorData := NewSentinel CodeNotFound "resource not found" KindNotFound
def ErrConflict : AppErrorData := NewSentinel CodeConflict "resource conflict" KindConflict
def ErrTimeout : AppErrorData := NewSentinel CodeTimeout "operation timed out" KindTimeout
def ErrRateLimited : AppErrorData := NewSentinel CodeRateLimited "rate limit exceeded" KindRateLimit
def ErrForbidden : AppErrorData := NewSentinel CodePermissionDenied "permission denied" KindForbidden
def ErrUnauthorized : AppErrorData := NewSentinel CodeUnauthorized "unauthorized" KindUnauthorized
def ErrInternal : AppErrorData := NewSentinel CodeInternal "internal error" KindInternal
def ErrNetwork : AppErrorData := NewSentinel CodeNetwork "network error" KindNetwork

/-! Chain algorithms. -/

/-- `Wrap` from the source: nil in, nil out; otherwise a `wrapError` whose
cause is the input. -/
def Wrap (err : Option GoError) (msg : String) : Option GoError :=
  match err with
  | none => none
  | some e => some (.wrapE msg (some e))

/-- The loop body of `RootCause` on a non-nil error: follow `Unwrap() error`
while it yields a non-nil cause, return the last non-nil error reached.
Errors are finite values in this model, so the recursion is structural — the
termination the source asks of acyclic chains. -/
def rootCauseE : GoError → GoError
  | .app _ (some c) => rootCauseE c
  | .wrapE _ (some c) => rootCauseE c
  | .limitE _ (some c) _ _ => rootCauseE c
  | .rbacE _ (some c) _ _ _ => rootCauseE c
  | .fieldE _ (some c) _ _ => rootCauseE c
  | .timeoutE _ (some c) _ => rootCauseE c
  | e => e

/-- `RootCause` from the source, including its leading nil check. -/
def RootCause : Option GoError → Option GoError
  | none => none
  | some e => some (rootCauseE e)

/-- `MultiError` from the source: drop nils; none left → nil; one left →
that error itself; otherwise `errors.Join` of the remainder. -/
def MultiError (errs : List (Option GoError)) : Option GoError :=
  let nonNil := errs.filterMap id
  match nonNil with
  | [] => none
  | [e] => some e
  | es => some (.joined es)

/-! Variants and public extraction. -/

/-- The `TimeoutError` variant: an embedded `AppError` (fields plus cause)
and the deadline. -/
structure TimeoutErrorV where
  data : AppErrorData
  cause : Option GoError
  Deadline : Nat

/-- `NewTimeoutError` from the source: `New` with the timeout code and fixed
messages, the caller's options first and `WithTimeout true`,
`WithRetryable true` appended after them, then the kind forced to
`KindTimeout`. -/
def NewTimeoutError (now : Nat) (stack : List String) (deadline : Nat)
    (opts : List ErrOption) : TimeoutErrorV :=
  let p := New now stack CodeTimeout "operation timed out" "request timed out"
    (opts ++ [.withTimeout true, .withRetryable true])
  { data := { p.1 with Kind := KindTimeout }, cause := p.2, Deadline := deadline }

/-- `PublicError` from the source: nil → empty; a direct type assertion (no
chain traversal) to `*AppError` with a non-empty user message, or to one of
the four variant types, returns the user message; everything else gets the
fixed fallback. -/
def PublicError : Option GoError → String
  | none => ""
  | some (.app d _) => if d.UserMsg ≠ "" then d.UserMsg else "an error occurred"
  | some (.fieldE d _ _ _) => d.UserMsg
  | some (.limitE d _ _ _) => d.UserMsg
  | some (.timeoutE d _ _) => d.UserMsg
  | some (.rbacE d _ _ _ _) => d.UserMsg
  | some _ => "an error occurred"

/-! Helper lemmas shared by the claim theorems below. -/

mutual
/-- `errEq` is reflexive. -/
theorem errEq_refl : ∀ e, errEq e e = true
  | .app d c => by simp [errEq, errEqOpt_refl c]
  | .wrapE m c => by simp [errEq, errEqOpt_refl c]
  | .joined es => by simp [errEq, errEqList_refl es]
  | .foreign m => by simp [errEq]
  | .limitE d c r s => by simp [errEq, errEqOpt_refl c]
  | .rbacE d c a b r => by simp [errEq, errEqOpt_refl c]
  | .fieldE d c f r => by simp [errEq, errEqOpt_refl c]
  | .timeoutE d c t => by simp [errEq, errEqOpt_refl c]

/-- `errEqOpt` is reflexive. -/
theorem errEqOpt_refl : ∀ c, errEqOpt c c = true
  | none => rfl
  | some e => errEq_refl e

/-- `errEqList` is reflexive. -/
theorem errEqList_refl : ∀ l, errEqList l l = true
  | [] => rfl
  | e :: es => by simp [errEqList, errEq_refl e, errEqList_refl es]
end

/-- Every error `Is` itself. -/
theorem errorIs_self (e : GoError) : errorIs e e = true := by
  cases e <;> simp [errorIs, errEq_refl]

/-- A member of a joined error's list passes the `Is` check against it. -/
theorem errorIsList_of_mem {es : List GoError} {e : GoError} (h : e ∈ es) :
    errorIsList es e = true := by
  induction es with
  | nil => cases h
  | cons a t ih =>
    rcases List.mem_cons.mp h with rfl | h'
    · simp [errorIsList, errorIs_self]
    · simp [errorIsList, ih h']

/-- No option changes the user message. -/
theorem applyOpts_userMsg (opts : List ErrOption) (p : AppErrorData × Option GoError) :
    (opts.foldl (fun q o => o.apply q) p).1.UserMsg = p.1.UserMsg := by
  induction opts generalizing p with
  | nil => rfl
  | cons o os ih =>
    rw [List.foldl_cons, ih]
    cases o <;> rfl

/-- Options other than the kind override leave the kind unchanged. -/
theorem applyOpts_kind (opts : List ErrOption) (h : ∀ k, ErrOption.withKind k ∉ opts)
    (p : AppErrorData × Option GoError) :
    (opts.foldl (fun q o => o.apply q) p).1.Kind = p.1.Kind := by
  induction opts generalizing p with
  | nil => rfl
  | cons o os ih =>
    rw [List.foldl_cons, ih (fun k hk => h k (List.mem_cons_of_mem _ hk))]
    cases o
    case withKind k => exact absurd (List.mem_cons_self _ _) (h k)
    all_goals rfl

/-- Redaction preserves the keys of the metadata map, in place. -/
theorem redactMetadata_keys (m : List (String × String)) :
    (redactMetadata m).map Prod.fst = m.map Prod.fst := by
  induction m with
  | nil => rfl
  | cons kv t ih =>
    simp only [redactMetadata, List.map_cons] at *
    rw [ih]
    split <;> simp

/-- Redaction replaces the value of a sensitive entry and keeps a
non-sensitive entry untouched. -/
theorem mem_redactMetadata_of_mem {m : List (String × String)} {k v : String}
    (h : (k, v) ∈ m) :
    (isPIIField k = true → (k, "[REDACTED]") ∈ redactMetadata m) ∧
    (isPIIField k = false → (k, v) ∈ redactMetadata m) := by
  constructor <;> intro hp
  · have hm := List.mem_map_of_mem
      (fun kv => if isPIIField kv.1 then (kv.1, "[REDACTED]") else kv) h
    simpa [redactMetadata, hp] using hm
  · have hm := List.mem_map_of_mem
      (fun kv => if isPIIField kv.1 then (kv.1, "[REDACTED]") else kv) h
    simpa [redactMetadata, hp] using hm

/-- C6: `kindToHTTPStatus` is total, maps validation to 400, unauthorized to
401, auth and forbidden to 403, not_found to 404, timeout to 408, conflict to
409, rate_limit to 429, network, internal and other to 500, and every kind
outside the eight kinds with a non-500 status — in particular every unlisted
kind — to 500; hence its value always lies in
{400, 401, 403, 404, 408, 409, 429, 500}. -/
theorem C6_kindToHTTPStatus_table :
    kindToHTTPStatus KindValidation = 400 ∧
    kindToHTTPStatus KindUnauthorized = 401 ∧
    kindToHTTPStatus KindAuth = 403 ∧
    kindToHTTPStatus KindForbidden = 403 ∧
    kindToHTTPStatus KindNotFound = 404 ∧
    kindToHTTPStatus KindTimeout = 408 ∧
    kindToHTTPStatus KindConflict = 409 ∧
    kindToHTTPStatus KindRateLimit = 429 ∧
    kindToHTTPStatus KindNetwork = 500 ∧
    kindToHTTPStatus KindInternal = 500 ∧
    kindToHTTPStatus KindOther = 500 ∧
    (∀ k : String,
      k ∉ [KindValidation, KindUnauthorized, KindAuth, KindForbidden,
           KindNotFound, KindTimeout, KindConflict, KindRateLimit] →
      kindToHTTPStatus k = 500) ∧
    (∀ k : String, kindToHTTPStatus k ∈ [400, 401, 403, 404, 408, 409, 429, 500]) := by
  refine ⟨rfl, rfl, rfl, rfl, rfl, rfl, rfl, rfl, rfl, rfl, rfl, ?_, ?_⟩
  · intro k hk
    simp only [List.mem_cons, List.not_mem_nil, or_false, not_or] at hk
    obtain ⟨n1, n2, n3, n4, n5, n6, n7, n8⟩ := hk
    simp [kindToHTTPStatus, n1, n2, n3, n4, n5, n6, n7, n8]
  · intro k
    unfold kindToHTTPStatus
    split_ifs <;> decide

/-- C6 witness: a kind not in the taxonomy falls through to the 500
default. -/
theorem C6_kindToHTTPStatus_table_witness :
    kindToHTTPStatus "bogus" = 500 :=
  C6_kindToHTTPStatus_table.2.2.2.2.2.2.2.2.2.2.2.1 "bogus" (by decide)

/-- C3: for every deadline and every option list — in particular one carrying
`WithRetryable false` or `WithTimeout false` — the timeout variant
constructor yields an error with `IsTimeout` and `IsRetryable` both true:
the forced options are appended after the caller's and the kind is forced to
timeout. -/
theorem C3_timeout_forces_flags :
    (∀ now stack deadline opts,
      ((NewTimeoutError now stack deadline opts).data.IsTimeout = true ∧
       (NewTimeoutError now stack deadline opts).data.IsRetryable = true)) ∧
    (NewTimeoutError 0 [] 7 [.withRetryable false, .withTimeout false]).data.IsTimeout
      = true ∧
    (NewTimeoutError 0 [] 7 [.withRetryable false, .withTimeout false]).data.IsRetryable
      = true := by
  refine ⟨?_, by decide, by decide⟩
  intro now stack deadline opts
  unfold NewTimeoutError New
  rw [List.foldl_append]
  constructor
  · simp [List.foldl, ErrOption.apply, AppErrorData.IsTimeout, KindTimeout]
  · simp [List.foldl, ErrOption.apply, AppErrorData.IsRetryable]

/-- C5 counterexample: constructing with empty internal AND user messages
leaves the user message empty after construction, so the claimed invariant
"userMessage is non-empty once construction returns" fails at this input. -/
theorem C5_cex_empty_both_messages :
    (New 0 [] CodeInternal "" "" []).1.UserMsg = "" := rfl

/-- C5 (amended): the userMessage field equals the given userMessage when
that is non-empty and otherwise equals internalMessage, for every code,
messages and option list; hence it is non-empty whenever at least one of the
two given messages is non-empty (with both empty it is empty). -/
theorem C5_userMsg_fallback :
    ∀ now stack code im um opts,
      (New now stack code im um opts).1.UserMsg = (if um = "" then im else um) ∧
      (im ≠ "" ∨ um ≠ "" → (New now stack code im um opts).1.UserMsg ≠ "") := by
  intro now stack code im um opts
  have h : (New now stack code im um opts).1.UserMsg = if um = "" then im else um := by
    unfold New
    rw [applyOpts_userMsg]
  refine ⟨h, ?_⟩
  intro hne
  rw [h]
  rcases hne with hne | hne
  · split <;> simp_all
  · split <;> simp_all

/-- C5 witness: a concrete construction with empty userMessage and non-empty
internalMessage ends with a non-empty userMessage. -/
theorem C5_userMsg_fallback_witness :
    (New 0 [] CodeInternal "boom" "" []).1.UserMsg ≠ "" :=
  (C5_userMsg_fallback 0 [] CodeInternal "boom" "" []).2 (Or.inl (by decide))

/-- C10: the default Code→Kind table sends both PERMISSION_DENIED and
UNAUTHORIZED to kind auth and never produces kind unauthorized, so `New` with
code UNAUTHORIZED and no kind override yields kind auth and HTTP status 403,
while the pre-built unauthorized sentinel carries kind unauthorized and HTTP
status 401. -/
theorem C10_unauthorized_kind_split :
    codeToKind CodeUnauthorized = KindAuth ∧
    codeToKind CodePermissionDenied = KindAuth ∧
    (∀ c, codeToKind c ≠ KindUnauthorized) ∧
    (∀ now stack im um opts, (∀ k, ErrOption.withKind k ∉ opts) →
      (New now stack CodeUnauthorized im um opts).1.Kind = KindAuth ∧
      (New now stack CodeUnauthorized im um opts).1.HTTPStatus = 403) ∧
    ErrUnauthorized.Kind = KindUnauthorized ∧
    ErrUnauthorized.HTTPStatus = 401 := by
  refine ⟨rfl, rfl, ?_, ?_, rfl, rfl⟩
  · intro c
    unfold codeToKind
    split_ifs <;> decide
  · intro now stack im um opts h
    have hk : (New now stack CodeUnauthorized im um opts).1.Kind = KindAuth := by
      unfold New
      rw [applyOpts_kind _ h]
      rfl
    exact ⟨hk, by simp [AppErrorData.HTTPStatus, hk]; decide⟩

/-- C10 witness: the construction clause at a concrete input with no
options. -/
theorem C10_unauthorized_kind_split_witness :
    (New 0 [] CodeUnauthorized "x" "y" []).1.Kind = KindAuth ∧
    (New 0 [] CodeUnauthorized "x" "y" []).1.HTTPStatus = 403 :=
  C10_unauthorized_kind_split.2.2.2.1 0 [] "x" "y" [] (by simp)

/-- C9: wrapping nil yields nil; wrapping a non-nil error yields a wrapper
whose text is the message, a colon-space, then the wrapped error's text,
whose unwrap is the wrapped error, and which still matches the wrapped error
(in particular a sentinel) under the `Is` check. -/
theorem C9_wrap_preserves_chain :
    (∀ msg, Wrap none msg = none) ∧
    (∀ e msg,
      Wrap (some e) msg = some (.wrapE msg (some e)) ∧
      errorText (GoError.wrapE msg (some e)) = msg ++ ": " ++ errorText e ∧
      unwrapOne (GoError.wrapE msg (some e)) = some e ∧
      errorIs (GoError.wrapE msg (some e)) e = true) := by
  refine ⟨fun msg => rfl, fun e msg => ⟨rfl, rfl, rfl, ?_⟩⟩
  simp [errorIs, errorIsOpt, errorIs_self]

/-- C7 counterexample: the claim's final clause quantifies over every base
error, but when the base itself still unwraps (here a wrapper over a foreign
error) the traversal continues past it: the root cause of the doubly wrapped
chain is the foreign error, not the base. -/
theorem C7_cex_base_with_cause :
    RootCause (Wrap (Wrap (some (.wrapE "inner" (some (.foreign "io")))) "mid") "outer")
      = some (.foreign "io") ∧
    RootCause (Wrap (Wrap (some (.wrapE "inner" (some (.foreign "io")))) "mid") "outer")
      ≠ some (.wrapE "inner" (some (.foreign "io"))) := by
  refine ⟨rfl, ?_⟩
  intro h
  simp [RootCause, Wrap, rootCauseE] at h

/-- C7 (amended): `RootCause` terminates on every finite chain (it is a total
function of the model); it returns the input unchanged when the input does
not unwrap or unwraps to nil, steps to the cause otherwise, and on a 2-level
wrap chain it returns the root cause of the base — which is the base itself
exactly when the base yields no further error by unwrap. -/
theorem C7_rootCause_last_nonNil :
    (∀ e, unwrapOne e = none → rootCauseE e = e) ∧
    (∀ e c, unwrapOne e = some c → rootCauseE e = rootCauseE c) ∧
    (∀ base m1 m2, RootCause (Wrap (Wrap (some base) m1) m2) = some (rootCauseE base)) ∧
    (∀ base m1 m2, unwrapOne base = none →
      RootCause (Wrap (Wrap (some base) m1) m2) = some base) := by
  have h1 : ∀ e, unwrapOne e = none → rootCauseE e = e := by
    intro e h
    cases e <;> simp_all [unwrapOne, rootCauseE]
  have h2 : ∀ e c, unwrapOne e = some c → rootCauseE e = rootCauseE c := by
    intro e c h
    cases e <;> simp_all [unwrapOne, rootCauseE]
  have h3 : ∀ base m1 m2,
      RootCause (Wrap (Wrap (some base) m1) m2) = some (rootCauseE base) := by
    intro base m1 m2
    simp [Wrap, RootCause, rootCauseE]
  exact ⟨h1, h2, h3, fun base m1 m2 h => by rw [h3, h1 base h]⟩

/-- C7 witness: the final clause at a concrete unwrap-less base. -/
theorem C7_rootCause_last_nonNil_witness :
    RootCause (Wrap (Wrap (some (.foreign "io")) "mid") "outer") = some (.foreign "io") :=
  C7_rootCause_last_nonNil.2.2.2 (.foreign "io") "mid" "outer" rfl

/-- C8: `MultiError` filters nils (the empty call and the all-nil call give
nil), returns the single remaining error itself when exactly one remains, and
every non-nil constituent of any non-nil result passes the `Is` check against
it — in particular against the joined error built from two or more. -/
theorem C8_multiError_join :
    MultiError [] = none ∧
    MultiError [none, none] = none ∧
    (∀ e, MultiError [some e] = some e) ∧
    (∀ errs e, errs.filterMap id = [e] → MultiError errs = some e) ∧
    (∀ errs j, MultiError errs = some j →
      ∀ e, some e ∈ errs → errorIs j e = true) := by
  refine ⟨rfl, rfl, fun e => rfl, ?_, ?_⟩
  · intro errs e h
    unfold MultiError
    rw [h]
  · intro errs j hj e he
    have he' : e ∈ errs.filterMap id := List.mem_filterMap.mpr ⟨some e, he, rfl⟩
    unfold MultiError at hj
    rcases h : errs.filterMap id with _ | ⟨e₀, rest⟩
    · rw [h] at he'
      cases he'
    · rcases rest with _ | ⟨e₁, rest'⟩
      · rw [h] at hj he'
        simp at hj
        rcases List.mem_singleton.mp he' with rfl
        rw [← hj]
        exact errorIs_self e
      · rw [h] at hj he'
        simp at hj
        rw [← hj]
        simp [errorIs, errorIsList_of_mem he']

/-- C8 witness: the `Is`-against-every-constituent clause at a two-error
join. -/
theorem C8_multiError_join_witness :
    errorIs (.joined [.foreign "a", .foreign "b"]) (.foreign "a") = true :=
  C8_multiError_join.2.2.2.2 [some (.foreign "a"), some (.foreign "b")]
    (.joined [.foreign "a", .foreign "b"]) rfl (.foreign "a") (by simp)

/-- C2 counterexample: a wrapper around a core error whose user message is
"oops" — chain matching (errorIs) finds that core error in the chain, yet
`PublicError` performs no chain traversal and returns the fixed fallback
instead of "oops", refuting the claim's chain-matching clause. -/
theorem C2_cex_wrapped_core_error :
    PublicError (some (.wrapE "ctx"
        (some (.app { zeroAppErrorData with UserMsg := "oops" } none))))
      = "an error occurred" ∧
    errorIs (.wrapE "ctx" (some (.app { zeroAppErrorData with UserMsg := "oops" } none)))
        (.app { zeroAppErrorData with UserMsg := "oops" } none) = true ∧
    ({ zeroAppErrorData with UserMsg := "oops" } : AppErrorData).UserMsg = "oops" ∧
    "oops" ≠ "an error occurred" := by
  refine ⟨rfl, ?_, rfl, by decide⟩
  simp [errorIs, errorIsOpt, errEq_refl]

/-- C2 (amended): `PublicError` returns the empty string for nil; when the
error itself — by direct type assertion, with no chain traversal — is the
core error value with a non-empty user message, or one of the four known
variants, it returns that user message; every other error (a foreign error,
a wrapper even when its chain contains a core error, a join, or a core error
with empty user message) gets exactly the fixed fallback "an error occurred"
and never its own text. -/
theorem C2_publicMessage_default_deny :
    PublicError none = "" ∧
    (∀ d c, d.UserMsg ≠ "" → PublicError (some (.app d c)) = d.UserMsg) ∧
    (∀ d c f r, PublicError (some (.fieldE d c f r)) = d.UserMsg) ∧
    (∀ d c rem rst, PublicError (some (.limitE d c rem rst)) = d.UserMsg) ∧
    (∀ d c dl, PublicError (some (.timeoutE d c dl)) = d.UserMsg) ∧
    (∀ d c a b r, PublicError (some (.rbacE d c a b r)) = d.UserMsg) ∧
    (∀ d c, d.UserMsg = "" → PublicError (some (.app d c)) = "an error occurred") ∧
    (∀ m, PublicError (some (.foreign m)) = "an error occurred") ∧
    (∀ m c, PublicError (some (.wrapE m c)) = "an error occurred") ∧
    (∀ es, PublicError (some (.joined es)) = "an error occurred") := by
  refine ⟨rfl, ?_, fun d c f r => rfl, fun d c rem rst => rfl, fun d c dl => rfl,
    fun d c a b r => rfl, ?_, fun m => rfl, fun m c => rfl, fun es => rfl⟩
  · intro d c h
    simp [PublicError, h]
  · intro d c h
    simp [PublicError, h]

/-- C2 witness: the direct core-error clause at a concrete error with a
non-empty user message. -/
theorem C2_publicMessage_default_deny_witness :
    PublicError (some (.app { zeroAppErrorData with UserMsg := "hi" } none)) = "hi" :=
  C2_publicMessage_default_deny.2.1 { zeroAppErrorData with UserMsg := "hi" } none
    (by decide)

/-- The serialized object always carries `code` first. -/
theorem marshal_lookup_code (e : AppErrorData) (c : Option GoError) :
    (MarshalJSON e c).lookup "code" = some (JVal.s e.Code) := by
  simp [MarshalJSON, List.lookup]

/-- The serialized object always carries `kind`. -/
theorem marshal_lookup_kind (e : AppErrorData) (c : Option GoError) :
    (MarshalJSON e c).lookup "kind" = some (JVal.s e.Kind) := by
  simp [MarshalJSON, List.lookup]

/-- The serialized object always carries `message` = the user message. -/
theorem marshal_lookup_message (e : AppErrorData) (c : Option GoError) :
    (MarshalJSON e c).lookup "message" = some (JVal.s e.UserMsg) := by
  simp [MarshalJSON, List.lookup]

/-- `trace_id` is present exactly when non-empty. -/
theorem marshal_lookup_trace (e : AppErrorData) (c : Option GoError) :
    (MarshalJSON e c).lookup "trace_id" =
      if e.TraceID = "" then none else some (JVal.s e.TraceID) := by
  by_cases h1 : e.TraceID = "" <;> by_cases h2 : e.RequestID = "" <;>
    by_cases h3 : e.Timestamp = 0 <;> by_cases h4 : e.Metadata = [] <;>
    simp [MarshalJSON, List.lookup, h1, h2, h3, h4]

/-- `request_id` is present exactly when non-empty. -/
theorem marshal_lookup_request (e : AppErrorData) (c : Option GoError) :
    (MarshalJSON e c).lookup "request_id" =
      if e.RequestID = "" then none else some (JVal.s e.RequestID) := by
  by_cases h1 : e.TraceID = "" <;> by_cases h2 : e.RequestID = "" <;>
    by_cases h3 : e.Timestamp = 0 <;> by_cases h4 : e.Metadata = [] <;>
    simp [MarshalJSON, List.lookup, h1, h2, h3, h4]

/-- `timestamp` is present exactly when non-zero, as the RFC3339 token. -/
theorem marshal_lookup_timestamp (e : AppErrorData) (c : Option GoError) :
    (MarshalJSON e c).lookup "timestamp" =
      if e.Timestamp = 0 then none else some (JVal.time e.Timestamp) := by
  by_cases h1 : e.TraceID = "" <;> by_cases h2 : e.RequestID = "" <;>
    by_cases h3 : e.Timestamp = 0 <;> by_cases h4 : e.Metadata = [] <;>
    simp [MarshalJSON, List.lookup, h1, h2, h3, h4]

/-- `metadata` is present exactly when non-empty, redacted. -/
theorem marshal_lookup_metadata (e : AppErrorData) (c : Option GoError) :
    (MarshalJSON e c).lookup "metadata" =
      if e.Metadata = [] then none
      else some (JVal.obj (redactMetadata e.Metadata)) := by
  by_cases h1 : e.TraceID = "" <;> by_cases h2 : e.RequestID = "" <;>
    by_cases h3 : e.Timestamp = 0 <;> by_cases h4 : e.Metadata = [] <;>
    simp [MarshalJSON, List.lookup, h1, h2, h3, h4]

/-- No key beyond the seven wire keys ever appears in the serialized form. -/
theorem marshal_lookup_absent (e : AppErrorData) (c : Option GoError) (key : String)
    (k1 : key ≠ "code") (k2 : key ≠ "kind") (k3 : key ≠ "message")
    (k4 : key ≠ "trace_id") (k5 : key ≠ "request_id") (k6 : key ≠ "timestamp")
    (k7 : key ≠ "metadata") :
    (MarshalJSON e c).lookup key = none := by
  have b1 : (key == "code") = false := beq_eq_false_iff_ne.mpr k1
  have b2 : (key == "kind") = false := beq_eq_false_iff_ne.mpr k2
  have b3 : (key == "message") = false := beq_eq_false_iff_ne.mpr k3
  have b4 : (key == "trace_id") = false := beq_eq_false_iff_ne.mpr k4
  have b5 : (key == "request_id") = false := beq_eq_false_iff_ne.mpr k5
  have b6 : (key == "timestamp") = false := beq_eq_false_iff_ne.mpr k6
  have b7 : (key == "metadata") = false := beq_eq_false_iff_ne.mpr k7
  by_cases h1 : e.TraceID = "" <;> by_cases h2 : e.RequestID = "" <;>
    by_cases h3 : e.Timestamp = 0 <;> by_cases h4 : e.Metadata = [] <;>
    simp [MarshalJSON, List.lookup, h1, h2, h3, h4, b1, b2, b3, b4, b5, b6, b7]

/-- C1: every serialized error carries `code`, `kind` and `message` (= the
user message); it never carries `internalMessage`, `cause` or `stackTrace`;
and in its metadata object every sensitive key's value is the fixed marker
"[REDACTED]" while keys and non-sensitive values pass through unchanged. -/
theorem C1_serialize_redacts (e : AppErrorData) (c : Option GoError) :
    (MarshalJSON e c).lookup "code" = some (JVal.s e.Code) ∧
    (MarshalJSON e c).lookup "kind" = some (JVal.s e.Kind) ∧
    (MarshalJSON e c).lookup "message" = some (JVal.s e.UserMsg) ∧
    (MarshalJSON e c).lookup "internalMessage" = none ∧
    (MarshalJSON e c).lookup "cause" = none ∧
    (MarshalJSON e c).lookup "stackTrace" = none ∧
    (∀ md, (MarshalJSON e c).lookup "metadata" = some (JVal.obj md) →
      md.map Prod.fst = e.Metadata.map Prod.fst ∧
      ∀ k v, (k, v) ∈ e.Metadata →
        (isPIIField k = true → (k, "[REDACTED]") ∈ md) ∧
        (isPIIField k = false → (k, v) ∈ md)) := by
  refine ⟨marshal_lookup_code e c, marshal_lookup_kind e c, marshal_lookup_message e c,
    marshal_lookup_absent e c _ (by decide) (by decide) (by decide) (by decide)
      (by decide) (by decide) (by decide),
    marshal_lookup_absent e c _ (by decide) (by decide) (by decide) (by decide)
      (by decide) (by decide) (by decide),
    marshal_lookup_absent e c _ (by decide) (by decide) (by decide) (by decide)
      (by decide) (by decide) (by decide), ?_⟩
  intro md hmd
  rw [marshal_lookup_metadata e c] at hmd
  by_cases h4 : e.Metadata = []
  · rw [if_pos h4] at hmd
    cases hmd
  · rw [if_neg h4] at hmd
    simp only [Option.some.injEq, JVal.obj.injEq] at hmd
    subst hmd
    exact ⟨redactMetadata_keys _, fun k v hkv => mem_redactMetadata_of_mem hkv⟩

/-- C1 witness: serializing a concrete error whose metadata holds a password
and a harmless note redacts the password's value and keeps the note. -/
theorem C1_serialize_redacts_witness :
    ("password", "[REDACTED]") ∈ redactMetadata [("password", "p1"), ("note", "n")] ∧
    ("note", "n") ∈ redactMetadata [("password", "p1"), ("note", "n")] := by
  have h := (C1_serialize_redacts
      { zeroAppErrorData with Metadata := [("password", "p1"), ("note", "n")] }
      none).2.2.2.2.2.2
  have h1 := h (redactMetadata [("password", "p1"), ("note", "n")]) (by rfl)
  exact ⟨(h1.2 "password" "p1" (by simp)).1 (by decide),
         (h1.2 "note" "n" (by simp)).2 (by decide)⟩

/-- C4: deserializing the serialized form of any error with no sensitive
metadata keys reproduces its code, kind, user message, trace id, request id
and timestamp (the timestamp at the RFC3339 second precision of the model). -/
theorem C4_roundtrip (e : AppErrorData) (c : Option GoError)
    (_hns : ∀ k v, (k, v) ∈ e.Metadata → isPIIField k = false) :
    (UnmarshalJSON (MarshalJSON e c)).Code = e.Code ∧
    (UnmarshalJSON (MarshalJSON e c)).Kind = e.Kind ∧
    (UnmarshalJSON (MarshalJSON e c)).UserMsg = e.UserMsg ∧
    (UnmarshalJSON (MarshalJSON e c)).TraceID = e.TraceID ∧
    (UnmarshalJSON (MarshalJSON e c)).RequestID = e.RequestID ∧
    (UnmarshalJSON (MarshalJSON e c)).Timestamp = e.Timestamp := by
  by_cases h1 : e.TraceID = "" <;> by_cases h2 : e.RequestID = "" <;>
    by_cases h3 : e.Timestamp = 0 <;> by_cases h4 : e.Metadata = [] <;>
    simp [UnmarshalJSON, marshal_lookup_code, marshal_lookup_kind,
      marshal_lookup_message, marshal_lookup_trace, marshal_lookup_request,
      marshal_lookup_timestamp, marshal_lookup_metadata, h1, h2, h3, h4,
      zeroAppErrorData]

/-- C4 witness: the round trip at a concrete error with every field set and a
non-sensitive metadata entry. -/
theorem C4_roundtrip_witness :
    (UnmarshalJSON (MarshalJSON { zeroAppErrorData with
        Code := "NOT_FOUND", Kind := "not_found", InternalMsg := "db row missing",
        UserMsg := "nf", TraceID := "t1", RequestID := "r1", Timestamp := 42,
        Metadata := [("key", "val")] } none)).Code = "NOT_FOUND" ∧
    (UnmarshalJSON (MarshalJSON { zeroAppErrorData with
        Code := "NOT_FOUND", Kind := "not_found", InternalMsg := "db row missing",
        UserMsg := "nf", TraceID := "t1", RequestID := "r1", Timestamp := 42,
        Metadata := [("key", "val")] } none)).Timestamp = 42 := by
  have h := C4_roundtrip { zeroAppErrorData with
      Code := "NOT_FOUND", Kind := "not_found", InternalMsg := "db row missing",
      UserMsg := "nf", TraceID := "t1", RequestID := "r1", Timestamp := 42,
      Metadata := [("key", "val")] } none
    (by intro k v hm; simp at hm; obtain ⟨rfl, rfl⟩ := hm; decide)
  exact ⟨h.1, h.2.2.2.2.2⟩
